import Mathlib

/-!
Shallow embedding of the core of the greenblatt-faustmann-screener
repository: the financial-metrics extraction (`financial_data_extractor.py`),
per-ticker processing (`ticker_processor.py`), ticker validation
(`ticker_validator.py`), the processing flow (`ticker_processing_flow.py`),
HTML screening-result extraction (`screening_parser.py`) and ticker
aggregation (`tickers_csv_aggregator.py`).

Modelling conventions:
* Python ints are arbitrary-precision, so they are embedded as `ℤ`.
* Python float ratios are embedded as `ℚ`; `round(x, d)` is embedded as
  exact round-half-to-even at `d` decimal digits (`pyRound`).
* A pandas cell is `Option ℤ`: `none` stands for a NaN / unparseable value
  (where Python `int(...)` would raise), `some v` for a parseable value.
* A transposed quarterly statement frame is a list of rows, most recent
  quarter first; each row is an association list from field name to cell.
  A missing key models a `KeyError`, a missing row index an `IndexError`.
* Provider attribute accesses that can raise are embedded as
  `Except ProviderError`; `.error` models an exception escaping the access,
  which the source catches at the per-ticker boundary.
* A fallible computation that the source turns into `None` / `{}` / `False`
  is embedded as a total function into `Option` / `Bool`.
-/

namespace Screener

/-- Python `round(num / den)` to an integer for `den ≠ 0`: round half to
even (banker's rounding), computed exactly on the integer fraction
`num / den` (for `den = 0` the value is irrelevant; the source always
guards the denominator). -/
def pyRoundIntFrac (num den : ℤ) : ℤ :=
  if den = 0 then 0
  else
    let n := if den < 0 then -num else num
    let d := if den < 0 then -den else den
    let q := n.fdiv d
    let rem := n - q * d
    if 2 * rem < d then q
    else if d < 2 * rem then q + 1
    else if q % 2 = 0 then q else q + 1

/-- Python `round(num / den, 3)`: the exact rational `num / den` rounded
to 3 decimal digits, half to even. -/
def round3Frac (num den : ℤ) : ℚ := Rat.divInt (pyRoundIntFrac (1000 * num) den) 1000

/-- Python `round(num / den, 2)`: the exact rational `num / den` rounded
to 2 decimal digits, half to even. -/
def round2Frac (num den : ℤ) : ℚ := Rat.divInt (pyRoundIntFrac (100 * num) den) 100

/-- One pandas cell: `none` models NaN / a value `int(...)` cannot parse. -/
abbrev Cell := Option ℤ

/-- One row of a transposed quarterly statement frame: an association list
from field name to cell.  A key absent from the list models a `KeyError`. -/
abbrev Row := List (String × Cell)

/-- A transposed quarterly statement frame: rows ordered most recent first. -/
abbrev Frame := List Row

/-- An exception escaping a provider attribute access. -/
inductive ProviderError where
  | failure
deriving DecidableEq

/-- The `stock.info` metadata mapping: the fields the source reads, each
possibly absent from the dictionary. -/
structure Info where
  marketCap : Option ℤ
  longName : Option String
  currentPrice : Option ℚ
  trailingEps : Option ℚ
deriving DecidableEq

/-- The `{}` default used by `stock.info or {}`: every `get` falls back. -/
def emptyInfo : Info := ⟨none, none, none, none⟩

/-- The Market Data Provider's view of one ticker (`yf.Ticker(...)`):
each attribute access either raises (`.error`), returns `None`
(`.ok none`) or returns data (`.ok (some _)`). -/
structure Stock where
  quarterly_balance_sheet : Except ProviderError (Option Frame)
  quarterly_incomestmt : Except ProviderError (Option Frame)
  info : Except ProviderError (Option Info)

/-- Model of `safe_int_access(df, row_idx, column_name)` from
`financial_data_extractor.py`: retrieve and convert a cell to int,
`0` on `KeyError` / `IndexError` / `TypeError` / `ValueError`. -/
def safe_int_access (df : Frame) (row_idx : ℕ) (column_name : String) : ℤ :=
  match df[row_idx]? with
  | none => 0
  | some row =>
    match List.lookup column_name row with
    | none => 0
    | some none => 0
    | some (some v) => v

/-- The tuple `extract_data` returns (field names kept from the source). -/
structure MetricsRecord where
  stock_name : String
  equity : ℤ
  cash : ℤ
  debt : ℤ
  market_cap : ℤ
  faustmann : ℚ
  debt_to_equity : ℚ
  roic : ℚ
  price_earnings : ℚ
deriving DecidableEq

/-- The body of the `try` block of `extract_data` in
`financial_data_extractor.py`, with the exception control flow made
explicit: each provider attribute access either raises (propagating
`.error` to the outer handler) or yields a value; `.ok none` is the
explicit `return None` on missing statements.  The short-circuit of
`bs is None or ist is None` is kept: the income statement is only
accessed when the balance sheet is present. -/
def extract_data_core (stock : Stock) : Except ProviderError (Option MetricsRecord) :=
  match stock.quarterly_balance_sheet with
  | .error e => .error e
  | .ok none => .ok none
  | .ok (some balance_sheet) =>
    match stock.quarterly_incomestmt with
    | .error e => .error e
    | .ok none => .ok none
    | .ok (some income_statement) =>
      let equity := safe_int_access balance_sheet 0 "Stockholders Equity"
      let cash := safe_int_access balance_sheet 0 "Cash And Cash Equivalents"
      let long_term_debt := safe_int_access balance_sheet 0 "Long Term Debt"
      let current_debt := safe_int_access balance_sheet 0 "Current Debt"
      let debt := long_term_debt + current_debt
      match stock.info with
      | .error e => .error e
      | .ok oinfo =>
        let stock_info := oinfo.getD emptyInfo
        let market_cap := stock_info.marketCap.getD 0
        let stock_name := stock_info.longName.getD "N/A"
        let denominator := equity + cash - debt
        let faustmann : ℚ :=
          if denominator = 0 then 0 else round3Frac market_cap denominator
        let net_incomes :=
          (List.range 4).map (fun i => safe_int_access income_statement i "Net Income")
        let net_income_ttm := net_incomes.sum
        let debt_to_equity : ℚ :=
          if equity = 0 then 0 else round3Frac debt equity
        let roic : ℚ :=
          if equity + debt = 0 then 0 else round3Frac net_income_ttm (equity + debt)
        let price := stock_info.currentPrice.getD 0
        let eps := stock_info.trailingEps.getD 0
        let price_earnings : ℚ :=
          if eps = 0 then 0
          else round2Frac (price.num * (eps.den : ℤ)) ((price.den : ℤ) * eps.num)
        .ok (some
          ⟨stock_name, equity, cash, debt, market_cap,
           faustmann, debt_to_equity, roic, price_earnings⟩)

/-- Model of `extract_data`: the outer `except Exception` maps any raised error to
`None`; the function never lets an exception escape. -/
def extract_data (stock : Stock) : Option MetricsRecord :=
  match extract_data_core stock with
  | .error _ => none
  | .ok r => r

/-- The dictionary built by `process_ticker` in `ticker_processor.py`:
the ticker symbol plus the extracted metrics.  `none` models the empty
dictionary `{}` returned when extraction fails (unpacking `None` raises,
and the `except` returns `{}`). -/
structure ProcessedRecord where
  ticker : String
  metrics : MetricsRecord
deriving DecidableEq

/-- Model of `process_ticker` from `ticker_processor.py`. -/
def process_ticker (ticker : String) (stock : Stock) : Option ProcessedRecord :=
  (extract_data stock).map (fun r => ⟨ticker, r⟩)

/-- Model of `check_ticker_validity` from `ticker_validator.py`: access the
quarterly balance sheet, take its first row (`iloc[0]`), look up
`"Stockholders Equity"`; any raised error (`AttributeError` on `None.T`,
`IndexError`, `KeyError`, provider exception) yields `False`. -/
def check_ticker_validity (stock : Stock) : Bool :=
  match stock.quarterly_balance_sheet with
  | .error _ => false
  | .ok none => false
  | .ok (some balance_sheet) =>
    match balance_sheet.head? with
    | none => false
    | some row =>
      match List.lookup "Stockholders Equity" row with
      | none => false
      | some _ => true

/-- Model of `ticker_processing_flow` from `ticker_processing_flow.py`, over an
already-parsed ticker list and a provider lookup: for each ticker in list
order, if valid, `process_ticker`'s result is appended unconditionally. -/
def ticker_processing_flow (provider : String → Stock) (tickers : List String) :
    List (Option ProcessedRecord) :=
  tickers.foldl
    (fun processed_data ticker =>
      if check_ticker_validity (provider ticker) then
        processed_data ++ [process_ticker ticker (provider ticker)]
      else
        processed_data)
    []

/-! ### HTML screening-result extraction (`screening_parser.py`) -/

/-- The parsed shape BeautifulSoup exposes to `parse_screening_html`:
`find("table", {"class": "screeningdata"})` either finds the results
table or not, the table either has a `<tbody>` or not, and the body is a
list of rows, each row the list of its `<td>` cell texts.  A cell text is
the raw text; `get_text(strip=True)` is modelled by `String.trim`. -/
structure HtmlTable where
  tbody : Option (List (List String))
deriving DecidableEq

/-- An HTML document, abstracted to the only query the source makes:
locating the `screeningdata` results table. -/
structure HtmlDoc where
  screeningTable : Option HtmlTable
deriving DecidableEq

/-- The outcome of opening and reading the input file: missing
(`FileNotFoundError`), unreadable (`OSError`), or parsed content. -/
inductive FileInput where
  | missing
  | unreadable
  | content (doc : HtmlDoc)
deriving DecidableEq

/-- Python `str.strip()` (as used by `get_text(strip=True)`): drop
leading and trailing whitespace.  Implemented by structural recursion on
the character list so it evaluates. -/
def pyStrip (s : String) : String :=
  ⟨((s.data.dropWhile Char.isWhitespace).reverse.dropWhile Char.isWhitespace).reverse⟩

/-- The row loop of `parse_screening_html`: for each row, if it has at
least two cells, take the stripped text of the second cell and append it
when non-empty (`if ticker_text:`). -/
def extractTickers : List (List String) → List String
  | [] => []
  | cells :: rest =>
    match cells with
    | _ :: second :: _ =>
      let ticker_text := pyStrip second
      if ticker_text = "" then extractTickers rest
      else ticker_text :: extractTickers rest
    | _ => extractTickers rest

/-- Model of `parse_screening_html` from `screening_parser.py`: a missing or
unreadable file, a document without the `screeningdata` table, or a table
without a `<tbody>`, each yield `[]`; otherwise the row loop runs. -/
def parse_screening_html (input : FileInput) : List String :=
  match input with
  | .missing => []
  | .unreadable => []
  | .content doc =>
    match doc.screeningTable with
    | none => []
    | some table =>
      match table.tbody with
      | none => []
      | some rows => extractTickers rows

/-! ### Ticker aggregation (`tickers_csv_aggregator.py`) -/

/-- Lexicographic comparison of character lists by code point, as Python
compares strings: the empty list is least, otherwise compare the heads
and recurse on equal heads. -/
def charListLe : List Char → List Char → Bool
  | [], _ => true
  | _ :: _, [] => false
  | c :: cs, d :: ds =>
    if c < d then true
    else if c = d then charListLe cs ds
    else false

/-- Python's `<=` on strings: lexicographic by code point. -/
def pyStrLe (a b : String) : Bool := charListLe a.data b.data

/-- The ordering relation Python `sorted` sorts strings by. -/
def strLeRel (a b : String) : Prop := pyStrLe a b = true

instance : DecidableRel strLeRel := fun a b => instDecidableEqBool (pyStrLe a b) true

/-- Model of `aggregate_tickers_from_html` from `tickers_csv_aggregator.py`, over
the per-threshold extraction results (`parseFile cap` is what
`parse_screening_html` returns for the file named after `cap`): extend a
single list across thresholds, deduplicate via `set`, sort
(`sorted(set(all_tickers))`).  Python `sorted` is modelled by insertion
sort with Python's lexicographic string order. -/
def aggregate_tickers_from_html (market_caps : List ℕ) (parseFile : ℕ → List String) :
    List String :=
  let all_tickers := market_caps.foldl (fun acc cap => acc ++ parseFile cap) []
  List.insertionSort strLeRel all_tickers.dedup

/-- The rows the aggregator persists: `csv_writer.writerow([ticker])` for
each ticker, i.e. one single-field row per symbol, in order. -/
def persistedRows (tickers : List String) : List (List String) :=
  tickers.map (fun ticker => [ticker])

/-! ### Derived notions used in the claim statements -/

/-- The integer a cell contributes: its value when present and parseable,
`0` when the key is absent or the value is unparseable (NaN). -/
def cellInt : Option Cell → ℤ
  | none => 0
  | some none => 0
  | some (some v) => v

/-- Formalisation of the wording of claim C6 for refinement comparison:
the stripped second-column text of every row having at least two columns,
in row order, with no further filtering. -/
def claimedSecondColumns (rows : List (List String)) : List String :=
  rows.filterMap (fun cells =>
    match cells with
    | _ :: second :: _ => some (pyStrip second)
    | _ => none)

/-! ### Concrete inputs used by witnesses and counterexamples -/

/-- Balance sheet of the spec §8 scenario: equity 100, cash 20,
long-term debt 30, current debt 0. -/
def bsEx : Frame :=
  [[("Stockholders Equity", some 100), ("Cash And Cash Equivalents", some 20),
    ("Long Term Debt", some 30), ("Current Debt", some 0)]]

/-- Income statement with four quarters of net income 10 each. -/
def istEx : Frame :=
  [[("Net Income", some 10)], [("Net Income", some 10)],
   [("Net Income", some 10)], [("Net Income", some 10)]]

/-- Metadata with market cap 900 and a display name. -/
def infoEx : Info := ⟨some 900, some "Acme", none, none⟩

/-- A fully populated provider response. -/
def stockEx : Stock := ⟨.ok (some bsEx), .ok (some istEx), .ok (some infoEx)⟩

/-- The record `extract_data` produces for `stockEx`:
faustmann = 900/90 = 10, debt-to-equity = 30/100 = 0.3,
roic = 40/130 rounded = 0.308. -/
def recordEx : MetricsRecord :=
  ⟨"Acme", 100, 20, 30, 900, 10, Rat.divInt 3 10, Rat.divInt 77 250, 0⟩

/-- A ticker with a usable balance sheet but no income statement at all:
it passes validation, yet metric extraction yields absent. -/
def stockNoIncome : Stock :=
  ⟨.ok (some [[("Stockholders Equity", some 100)]]), .ok none, .ok none⟩

/-- A ticker with no balance sheet at all. -/
def stockNoBalance : Stock := ⟨.ok none, .ok (some istEx), .ok (some infoEx)⟩

/-- A ticker whose metadata access raises a provider error. -/
def stockInfoError : Stock := ⟨.ok (some bsEx), .ok (some istEx), .error .failure⟩

/-- A ticker whose balance-sheet access raises a provider error. -/
def stockProviderError : Stock := ⟨.error .failure, .ok (some istEx), .ok (some infoEx)⟩

/-- A provider under which every ticker resolves to `stockNoIncome`. -/
def providerX : String → Stock := fun _ => stockNoIncome

/-- Table rows of the spec §8 extractor scenario. -/
def rowsEx : List (List String) := [["1", "AAPL", "x"], ["2", "MSFT", "y"]]

/-- A document containing the results table with body `rowsEx`. -/
def docEx : HtmlDoc := ⟨some ⟨some rowsEx⟩⟩

/-- Rows whose first entry has a blank second column. -/
def rowsBlank : List (List String) := [["1", " "], ["2", "MSFT"]]

/-- A document containing the results table with body `rowsBlank`. -/
def docBlank : HtmlDoc := ⟨some ⟨some rowsBlank⟩⟩

/-- A document with no `screeningdata` table. -/
def docNoTable : HtmlDoc := ⟨none⟩

/-- A document whose results table has no `<tbody>`. -/
def docNoBody : HtmlDoc := ⟨some ⟨none⟩⟩

/-- Per-threshold extraction results of the spec §8 aggregation
scenario: 250 → [AAPL, MSFT], 500 → [MSFT, GOOG]. -/
def parseFileEx : ℕ → List String :=
  fun cap =>
    if cap = 250 then ["AAPL", "MSFT"]
    else if cap = 500 then ["MSFT", "GOOG"]
    else []

/-! ## Helper lemmas -/

lemma safe_int_access_nil (i : ℕ) (field : String) : safe_int_access [] i field = 0 := by
  simp [safe_int_access]

lemma safe_int_access_cons_succ (row : Row) (df : Frame) (i : ℕ) (field : String) :
    safe_int_access (row :: df) (i + 1) field = safe_int_access df i field := by
  simp [safe_int_access]

lemma safe_int_access_cons_zero (row : Row) (df : Frame) (field : String) :
    safe_int_access (row :: df) 0 field = cellInt (List.lookup field row) := by
  unfold safe_int_access cellInt
  rcases h : List.lookup field row with _ | (_ | v) <;> simp [h]

/-- The four-quarter loop of the source equals the sum over however many
of the first `n` rows exist, each contributing `cellInt` of its field. -/
lemma sum_range_safe_int_access (field : String) :
    ∀ (df : Frame) (n : ℕ),
      ((List.range n).map (fun i => safe_int_access df i field)).sum =
        ((df.take n).map (fun row => cellInt (List.lookup field row))).sum := by
  intro df
  induction df with
  | nil =>
    intro n
    simp [safe_int_access]
  | cons row rest ih =>
    intro n
    cases n with
    | zero => simp
    | succ m =>
      rw [List.range_succ_eq_map]
      simp only [List.map_cons, List.map_map, List.sum_cons, List.take_succ_cons]
      have hcomp :
          ((fun i => safe_int_access (row :: rest) i field) ∘ (fun i => i + 1)) =
            fun i => safe_int_access rest i field := by
        funext i
        simp [Function.comp, safe_int_access_cons_succ]
      rw [hcomp, ih m, safe_int_access_cons_zero]

/-- If extraction succeeded, every provider access succeeded and both
statements were present. -/
lemma extract_data_some_stock (stock : Stock) (r : MetricsRecord)
    (h : extract_data stock = some r) :
    ∃ bs ist oinfo, stock = ⟨.ok (some bs), .ok (some ist), .ok oinfo⟩ := by
  obtain ⟨qbs, qist, qinfo⟩ := stock
  cases qbs with
  | error e => simp [extract_data, extract_data_core] at h
  | ok obs =>
    cases obs with
    | none => simp [extract_data, extract_data_core] at h
    | some bs =>
      cases qist with
      | error e => simp [extract_data, extract_data_core] at h
      | ok oist =>
        cases oist with
        | none => simp [extract_data, extract_data_core] at h
        | some ist =>
          cases qinfo with
          | error e => simp [extract_data, extract_data_core] at h
          | ok oinfo => exact ⟨bs, ist, oinfo, rfl⟩

/-! ## Claim theorems: metric formulas -/

/-- Claim C2: for every ticker whose data is retrieved, the computed
faustmann value equals market_cap / (equity + cash − debt) rounded to 3
decimal places, and resolves to 0.0 (not a division error) whenever the
denominator equity + cash − debt is 0. -/
theorem faustmann_ratio_spec (stock : Stock) (r : MetricsRecord)
    (h : extract_data stock = some r) :
    (r.equity + r.cash - r.debt = 0 → r.faustmann = 0) ∧
    (r.equity + r.cash - r.debt ≠ 0 →
      r.faustmann = round3Frac r.market_cap (r.equity + r.cash - r.debt)) := by
  obtain ⟨bs, ist, oinfo, rfl⟩ := extract_data_some_stock stock r h
  simp only [extract_data, extract_data_core] at h
  rw [Option.some.injEq] at h
  subst h
  refine ⟨fun hd => ?_, fun hd => ?_⟩
  · simp only at hd ⊢
    rw [if_pos hd]
  · simp only at hd ⊢
    rw [if_neg hd]

/-- Witness for C2 at the spec §8 scenario (equity 100, cash 20, debt 30,
market cap 900): faustmann = 900/90 = 10. -/
theorem faustmann_ratio_spec_witness :
    extract_data stockEx = some recordEx ∧ recordEx.faustmann = 10 :=
  ⟨by decide,
    ((faustmann_ratio_spec stockEx recordEx (by decide)).2 (by decide)).trans (by decide)⟩

/-- Claim C3: net_income_ttm is the sum of the net income of the
up-to-four most recent quarters, each absent or unparseable quarter
contributing 0 and fewer than four quarters meaning summing over however
many exist; roic equals net_income_ttm / (equity + debt) rounded to 3
decimal places, resolving to 0.0 when equity + debt is 0. -/
theorem roic_ttm_spec (stock : Stock) (ist : Frame) (r : MetricsRecord)
    (hist : stock.quarterly_incomestmt = .ok (some ist))
    (h : extract_data stock = some r) :
    (r.equity + r.debt = 0 → r.roic = 0) ∧
    (r.equity + r.debt ≠ 0 →
      r.roic = round3Frac
        (((ist.take 4).map (fun row => cellInt (List.lookup "Net Income" row))).sum)
        (r.equity + r.debt)) := by
  obtain ⟨bs, ist', oinfo, rfl⟩ := extract_data_some_stock stock r h
  obtain rfl : ist = ist' := by simpa using hist.symm
  simp only [extract_data, extract_data_core] at h
  rw [Option.some.injEq] at h
  subst h
  rw [← sum_range_safe_int_access "Net Income" ist 4]
  refine ⟨fun hd => ?_, fun hd => ?_⟩
  · simp only at hd ⊢
    rw [if_pos hd]
  · simp only at hd ⊢
    rw [if_neg hd]

/-- Witness for C3 at the spec §8 scenario: four quarters of net income
10 give ttm 40, and roic = 40/130 rounded = 0.308. -/
theorem roic_ttm_spec_witness :
    extract_data stockEx = some recordEx ∧ recordEx.roic = Rat.divInt 77 250 :=
  ⟨by decide,
    ((roic_ttm_spec stockEx istEx recordEx rfl (by decide)).2 (by decide)).trans
      (by decide)⟩

/-- Claim C4: debt_to_equity is 0.0 (not a division error) when equity is
0, and debt / equity rounded to 3 decimal places otherwise. -/
theorem debt_to_equity_spec (stock : Stock) (r : MetricsRecord)
    (h : extract_data stock = some r) :
    (r.equity = 0 → r.debt_to_equity = 0) ∧
    (r.equity ≠ 0 → r.debt_to_equity = round3Frac r.debt r.equity) := by
  obtain ⟨bs, ist, oinfo, rfl⟩ := extract_data_some_stock stock r h
  simp only [extract_data, extract_data_core] at h
  rw [Option.some.injEq] at h
  subst h
  refine ⟨fun hd => ?_, fun hd => ?_⟩
  · simp only at hd ⊢
    rw [if_pos hd]
  · simp only at hd ⊢
    rw [if_neg hd]

/-- Witness for C4 at the spec §8 scenario: debt_to_equity = 30/100 = 0.3. -/
theorem debt_to_equity_spec_witness :
    extract_data stockEx = some recordEx ∧ recordEx.debt_to_equity = Rat.divInt 3 10 :=
  ⟨by decide,
    ((debt_to_equity_spec stockEx recordEx (by decide)).2 (by decide)).trans (by decide)⟩

/-! ## Claim theorems: error containment -/

/-- Claim C8: the metrics computation yields absent (not a zeroed
record) when no balance sheet or no income statement exists at all, and
any provider error raised during the computation is caught at the
per-ticker boundary, also yielding absent, never propagating. -/
theorem extraction_absent_on_missing_or_error (stock : Stock) :
    (stock.quarterly_balance_sheet = .ok none → extract_data stock = none) ∧
    (∀ bs, stock.quarterly_balance_sheet = .ok (some bs) →
      stock.quarterly_incomestmt = .ok none → extract_data stock = none) ∧
    (∀ e, stock.quarterly_balance_sheet = .error e → extract_data stock = none) ∧
    (∀ bs e, stock.quarterly_balance_sheet = .ok (some bs) →
      stock.quarterly_incomestmt = .error e → extract_data stock = none) ∧
    (∀ bs ist e, stock.quarterly_balance_sheet = .ok (some bs) →
      stock.quarterly_incomestmt = .ok (some ist) → stock.info = .error e →
      extract_data stock = none) ∧
    (∀ e, extract_data_core stock = .error e → extract_data stock = none) := by
  obtain ⟨qbs, qist, qinfo⟩ := stock
  refine ⟨?_, ?_, ?_, ?_, ?_, ?_⟩
  · intro hbs
    simp only at hbs
    subst hbs
    rfl
  · intro bs hbs hist
    simp only at hbs hist
    subst hbs
    subst hist
    rfl
  · intro e hbs
    simp only at hbs
    subst hbs
    rfl
  · intro bs e hbs hist
    simp only at hbs hist
    subst hbs
    subst hist
    rfl
  · intro bs ist e hbs hist hinfo
    simp only at hbs hist hinfo
    subst hbs
    subst hist
    subst hinfo
    rfl
  · intro e hcore
    simp only [extract_data, hcore]

/-- Witness for C8: a present balance sheet with an absent income
statement, an absent balance sheet, a raising balance-sheet access and a
raising metadata access all yield absent. -/
theorem extraction_absent_on_missing_or_error_witness :
    extract_data stockNoIncome = none ∧ extract_data stockNoBalance = none ∧
    extract_data stockProviderError = none ∧ extract_data stockInfoError = none :=
  ⟨(extraction_absent_on_missing_or_error stockNoIncome).2.1
      [[("Stockholders Equity", some 100)]] rfl rfl,
   (extraction_absent_on_missing_or_error stockNoBalance).1 rfl,
   (extraction_absent_on_missing_or_error stockProviderError).2.2.1 .failure rfl,
   (extraction_absent_on_missing_or_error stockInfoError).2.2.2.2.1 bsEx istEx .failure
      rfl rfl rfl⟩

/-- Claim C9: the validator returns true exactly when the provider
returns at least one quarterly balance-sheet row carrying the equity
field (rows of one frame carry the same fields, which the hypothesis of
the third part records), and returns false, never raising, on any data
absence, structural-access error or provider error. -/
theorem validator_spec (stock : Stock) :
    (∀ e, stock.quarterly_balance_sheet = .error e → check_ticker_validity stock = false) ∧
    (stock.quarterly_balance_sheet = .ok none → check_ticker_validity stock = false) ∧
    (∀ bs, stock.quarterly_balance_sheet = .ok (some bs) →
      (∀ r₁, r₁ ∈ bs → ∀ r₂, r₂ ∈ bs →
        (List.lookup "Stockholders Equity" r₁).isSome =
          (List.lookup "Stockholders Equity" r₂).isSome) →
      (check_ticker_validity stock = true ↔
        ∃ row ∈ bs, (List.lookup "Stockholders Equity" row).isSome = true)) := by
  obtain ⟨qbs, qist, qinfo⟩ := stock
  refine ⟨?_, ?_, ?_⟩
  · intro e hbs
    simp only at hbs
    subst hbs
    rfl
  · intro hbs
    simp only at hbs
    subst hbs
    rfl
  · intro bs hbs hkeys
    simp only at hbs
    subst hbs
    cases bs with
    | nil =>
      constructor
      · intro hv
        exact absurd hv (by simp [check_ticker_validity])
      · rintro ⟨row, hmem, -⟩
        exact absurd hmem (List.not_mem_nil row)
    | cons row rest =>
      constructor
      · intro hv
        refine ⟨row, List.mem_cons_self row rest, ?_⟩
        revert hv
        simp only [check_ticker_validity, List.head?_cons]
        rcases hl : List.lookup "Stockholders Equity" row with _ | v <;> simp [hl]
      · rintro ⟨row', hmem, hsome⟩
        have hrow : (List.lookup "Stockholders Equity" row).isSome = true := by
          rw [hkeys row (List.mem_cons_self row rest) row' hmem]
          exact hsome
        simp only [check_ticker_validity, List.head?_cons]
        rcases hl : List.lookup "Stockholders Equity" row with _ | v
        · rw [hl] at hrow
          simp at hrow
        · rfl

/-- Witness for C9: a frame whose first row carries equity validates; an
absent balance sheet and a raising access do not. -/
theorem validator_spec_witness :
    check_ticker_validity stockEx = true ∧
    check_ticker_validity stockNoBalance = false ∧
    check_ticker_validity stockProviderError = false :=
  ⟨((validator_spec stockEx).2.2 bsEx rfl (by decide)).mpr (by decide),
   (validator_spec stockNoBalance).2.1 rfl,
   (validator_spec stockProviderError).1 .failure rfl⟩

/-! ## Claim theorem: the processing flow appends empty records -/

/-- Claim C1 (code bug): a ticker that passes validation (balance sheet
with equity present) but whose income statement is absent makes the
computation yield absent, yet `ticker_processing_flow` appends the empty
record (`{}`, here `none`) to the output unconditionally, so the output
does contain an entry for a ticker whose computation yielded absent,
contradicting the claim's "no entry ... ever appears in the output". -/
theorem flow_appends_empty_record_for_failed_extraction :
    check_ticker_validity (providerX "X") = true ∧
    extract_data (providerX "X") = none ∧
    ticker_processing_flow providerX ["X"] = [none] := by
  refine ⟨rfl, rfl, rfl⟩

/-! ## Claim theorems: HTML extraction -/

/-- The row loop keeps, in order, exactly the non-blank stripped
second-column texts. -/
lemma extractTickers_eq_filter :
    ∀ rows, extractTickers rows =
      (claimedSecondColumns rows).filter (fun t => t != "") := by
  intro rows
  induction rows with
  | nil => rfl
  | cons cells rest ih =>
    match cells with
    | [] => simpa [extractTickers, claimedSecondColumns] using ih
    | [a] => simpa [extractTickers, claimedSecondColumns] using ih
    | a :: b :: tail =>
      by_cases hb : pyStrip b = ""
      · simp [extractTickers, claimedSecondColumns, hb, ih]
      · simp [extractTickers, claimedSecondColumns, hb, ih]

/-- Every ticker produced by the row loop is non-empty. -/
lemma extractTickers_mem_ne_empty :
    ∀ rows t, t ∈ extractTickers rows → t ≠ "" := by
  intro rows
  induction rows with
  | nil =>
    intro t ht
    exact absurd ht (List.not_mem_nil t)
  | cons cells rest ih =>
    intro t ht
    match cells with
    | [] => exact ih t ht
    | [a] => exact ih t ht
    | a :: b :: tail =>
      revert ht
      simp only [extractTickers]
      by_cases hb : pyStrip b = ""
      · rw [if_pos hb]
        exact ih t
      · rw [if_neg hb]
        intro ht
        rcases List.mem_cons.mp ht with h1 | h2
        · rw [h1]
          exact hb
        · exact ih t h2

/-- Counterexample to claim C6 as stated: on a table body whose first
row has a blank second column the extractor does not return the second
column of every at-least-two-column row; it drops the blank one. -/
theorem second_column_counterexample :
    parse_screening_html (.content docBlank) ≠ claimedSecondColumns rowsBlank := by
  decide

/-- Claim C6 as amended: for every document containing the results table
with a body, the extractor returns, in row order, the stripped
second-column text of each row of the body, skipping rows with fewer
than two columns and rows whose second-column text is empty after
stripping. -/
theorem extractor_second_column_in_row_order (doc : HtmlDoc) (table : HtmlTable)
    (rows : List (List String))
    (h1 : doc.screeningTable = some table) (h2 : table.tbody = some rows) :
    parse_screening_html (.content doc) =
      (claimedSecondColumns rows).filter (fun t => t != "") := by
  simp only [parse_screening_html, h1, h2]
  exact extractTickers_eq_filter rows

/-- Witness for amended C6 at the spec §8 scenario: rows
`["1","AAPL","x"], ["2","MSFT","y"]` yield `["AAPL","MSFT"]`. -/
theorem extractor_second_column_in_row_order_witness :
    parse_screening_html (.content docEx) = ["AAPL", "MSFT"] :=
  (extractor_second_column_in_row_order docEx ⟨some rowsEx⟩ rowsEx rfl rfl).trans (by decide)

/-- Claim C7: a missing or unreadable input file, a document without the
results table, and a table without a body each yield the empty sequence,
with no exception reaching the caller (the embedded extractor is a total
function). -/
theorem extractor_missing_input_yields_empty :
    parse_screening_html .missing = [] ∧
    parse_screening_html .unreadable = [] ∧
    (∀ doc, doc.screeningTable = none → parse_screening_html (.content doc) = []) ∧
    (∀ doc table, doc.screeningTable = some table → table.tbody = none →
      parse_screening_html (.content doc) = []) := by
  refine ⟨rfl, rfl, ?_, ?_⟩
  · intro doc hd
    simp [parse_screening_html, hd]
  · intro doc table hd ht
    simp [parse_screening_html, hd, ht]

/-- Witness for C7 at concrete inputs: a table-less document and a
body-less table both yield the empty sequence. -/
theorem extractor_missing_input_yields_empty_witness :
    parse_screening_html (.content docNoTable) = [] ∧
    parse_screening_html (.content docNoBody) = [] :=
  ⟨extractor_missing_input_yields_empty.2.2.1 docNoTable rfl,
   extractor_missing_input_yields_empty.2.2.2 docNoBody ⟨none⟩ rfl rfl⟩

/-- Claim C10: every ticker the extractor returns is a non-empty string,
and a row whose second column exists but holds only empty text (after
stripping) contributes no ticker. -/
theorem extracted_tickers_nonempty :
    (∀ input t, t ∈ parse_screening_html input → t ≠ "") ∧
    (∀ first second tail rest, pyStrip second = "" →
      extractTickers ((first :: second :: tail) :: rest) = extractTickers rest) := by
  constructor
  · intro input t ht
    match input with
    | .missing => exact absurd ht (List.not_mem_nil t)
    | .unreadable => exact absurd ht (List.not_mem_nil t)
    | .content doc =>
      match hd : doc.screeningTable with
      | none =>
        rw [parse_screening_html, hd] at ht
        exact absurd ht (List.not_mem_nil t)
      | some table =>
        match htb : table.tbody with
        | none =>
          simp only [parse_screening_html, hd, htb] at ht
          exact absurd ht (List.not_mem_nil t)
        | some rows =>
          simp only [parse_screening_html, hd, htb] at ht
          exact extractTickers_mem_ne_empty rows t ht
  · intro first second tail rest hblank
    simp [extractTickers, hblank]

/-- Witness for C10: the blank-celled row contributes nothing and a
returned ticker is non-empty. -/
theorem extracted_tickers_nonempty_witness :
    extractTickers [["1", " "]] = [] ∧ ("MSFT" : String) ≠ "" :=
  ⟨(extracted_tickers_nonempty.2 "1" " " [] [] (by decide)).trans rfl,
   extracted_tickers_nonempty.1 (.content docBlank) "MSFT" (by decide)⟩

/-! ## Claim theorem: aggregation -/

lemma charListLe_total : ∀ a b, charListLe a b = true ∨ charListLe b a = true
  | [], _ => Or.inl rfl
  | _ :: _, [] => Or.inr rfl
  | c :: cs, d :: ds => by
    rcases lt_trichotomy c d with h | h | h
    · left
      simp [charListLe, h]
    · subst h
      rcases charListLe_total cs ds with ih | ih
      · left
        simp [charListLe, ih]
      · right
        simp [charListLe, ih]
    · right
      simp [charListLe, h]

lemma charListLe_trans :
    ∀ a b c, charListLe a b = true → charListLe b c = true → charListLe a c = true
  | [], _, _, _, _ => rfl
  | _ :: _, [], _, hab, _ => by simp [charListLe] at hab
  | _ :: _, _ :: _, [], _, hbc => by simp [charListLe] at hbc
  | x :: xs, y :: ys, z :: zs, hab, hbc => by
    rcases lt_trichotomy x y with hxy | hxy | hxy
    · rcases lt_trichotomy y z with hyz | hyz | hyz
      · simp [charListLe, lt_trans hxy hyz]
      · subst hyz
        simp [charListLe, hxy]
      · simp only [charListLe] at hbc
        rw [if_neg (asymm hyz), if_neg (ne_of_gt hyz)] at hbc
        simp at hbc
    · subst hxy
      rcases lt_trichotomy x z with hxz | hxz | hxz
      · simp [charListLe, hxz]
      · subst hxz
        have h1 : charListLe xs ys = true := by simpa [charListLe] using hab
        have h2 : charListLe ys zs = true := by simpa [charListLe] using hbc
        simpa [charListLe] using charListLe_trans xs ys zs h1 h2
      · simp only [charListLe] at hbc
        rw [if_neg (asymm hxz), if_neg (ne_of_gt hxz)] at hbc
        simp at hbc
    · simp only [charListLe] at hab
      rw [if_neg (asymm hxy), if_neg (ne_of_gt hxy)] at hab
      simp at hab

lemma charListLe_antisymm :
    ∀ a b, charListLe a b = true → charListLe b a = true → a = b
  | [], [], _, _ => rfl
  | [], _ :: _, _, hba => by simp [charListLe] at hba
  | _ :: _, [], hab, _ => by simp [charListLe] at hab
  | x :: xs, y :: ys, hab, hba => by
    rcases lt_trichotomy x y with h | h | h
    · simp only [charListLe] at hba
      rw [if_neg (asymm h), if_neg (ne_of_gt h)] at hba
      simp at hba
    · subst h
      have h1 : charListLe xs ys = true := by simpa [charListLe] using hab
      have h2 : charListLe ys xs = true := by simpa [charListLe] using hba
      rw [charListLe_antisymm xs ys h1 h2]
    · simp only [charListLe] at hab
      rw [if_neg (asymm h), if_neg (ne_of_gt h)] at hab
      simp at hab

instance : IsTotal String strLeRel :=
  ⟨fun a b => charListLe_total a.data b.data⟩

instance : IsTrans String strLeRel :=
  ⟨fun a b c => charListLe_trans a.data b.data c.data⟩

instance : IsAntisymm String strLeRel :=
  ⟨fun a b hab hba => by
    cases a
    cases b
    exact congrArg String.mk (charListLe_antisymm _ _ hab hba)⟩

lemma foldl_append_eq_flatMap (parseFile : ℕ → List String) :
    ∀ (caps : List ℕ) (acc : List String),
      caps.foldl (fun acc cap => acc ++ parseFile cap) acc = acc ++ caps.flatMap parseFile
  | [], acc => by simp
  | cap :: caps, acc => by
    simp only [List.foldl_cons, List.flatMap_cons]
    rw [foldl_append_eq_flatMap parseFile caps (acc ++ parseFile cap)]
    simp [List.append_assoc]

lemma aggregate_eq (caps : List ℕ) (parseFile : ℕ → List String) :
    aggregate_tickers_from_html caps parseFile =
      List.insertionSort strLeRel (caps.flatMap parseFile).dedup := by
  unfold aggregate_tickers_from_html
  rw [foldl_append_eq_flatMap]
  simp

/-- Claim C5: aggregation produces the lexicographically sorted,
duplicate-free union of all per-threshold extracted tickers, persisted
one symbol per row, and the result is invariant under reordering and
repetition of the thresholds. -/
theorem aggregate_sorted_unique_union (caps caps' : List ℕ) (parseFile : ℕ → List String)
    (hperm : caps.Perm caps') :
    List.Sorted strLeRel (aggregate_tickers_from_html caps parseFile) ∧
    (aggregate_tickers_from_html caps parseFile).Nodup ∧
    (∀ t, t ∈ aggregate_tickers_from_html caps parseFile ↔
      ∃ cap ∈ caps, t ∈ parseFile cap) ∧
    aggregate_tickers_from_html caps' parseFile = aggregate_tickers_from_html caps parseFile ∧
    aggregate_tickers_from_html (caps ++ caps) parseFile =
      aggregate_tickers_from_html caps parseFile ∧
    persistedRows (aggregate_tickers_from_html caps parseFile) =
      (aggregate_tickers_from_html caps parseFile).map (fun t => [t]) := by
  have hsorted : ∀ l : List String, List.Sorted strLeRel (List.insertionSort strLeRel l) :=
    fun l => List.sorted_insertionSort strLeRel l
  refine ⟨?_, ?_, ?_, ?_, ?_, rfl⟩
  · rw [aggregate_eq]
    exact hsorted _
  · rw [aggregate_eq]
    exact ((List.perm_insertionSort strLeRel _).nodup_iff).mpr (List.nodup_dedup _)
  · intro t
    rw [aggregate_eq, (List.perm_insertionSort strLeRel _).mem_iff, List.mem_dedup,
      List.mem_flatMap]
  · rw [aggregate_eq, aggregate_eq]
    refine List.eq_of_perm_of_sorted ?_ (hsorted _) (hsorted _)
    exact ((List.perm_insertionSort _ _).trans
      ((hperm.symm.flatMap_right parseFile).dedup)).trans
      (List.perm_insertionSort _ _).symm
  · rw [aggregate_eq, aggregate_eq]
    refine List.eq_of_perm_of_sorted ?_ (hsorted _) (hsorted _)
    have hmemeq : ∀ t,
        t ∈ ((caps ++ caps).flatMap parseFile).dedup ↔
          t ∈ (caps.flatMap parseFile).dedup := by
      intro t
      simp [List.mem_dedup, List.mem_flatMap, List.mem_append, or_and_right, exists_or]
    have hp : List.Perm ((caps ++ caps).flatMap parseFile).dedup
        (caps.flatMap parseFile).dedup :=
      (List.perm_ext_iff_of_nodup (List.nodup_dedup _) (List.nodup_dedup _)).mpr hmemeq
    exact ((List.perm_insertionSort _ _).trans hp).trans (List.perm_insertionSort _ _).symm

/-- Witness for C5 at the spec §8 scenario: thresholds [250, 500] with
250 → [AAPL, MSFT] and 500 → [MSFT, GOOG] aggregate, in either order, to
[AAPL, GOOG, MSFT]. -/
theorem aggregate_sorted_unique_union_witness :
    aggregate_tickers_from_html [500, 250] parseFileEx =
      aggregate_tickers_from_html [250, 500] parseFileEx ∧
    aggregate_tickers_from_html [250, 500] parseFileEx = ["AAPL", "GOOG", "MSFT"] :=
  ⟨(aggregate_sorted_unique_union [250, 500] [500, 250] parseFileEx
      (List.Perm.swap 500 250 [])).2.2.2.1,
   by decide⟩

end Screener

